import Mathlib

/-!
# gold-token: the coverage configuration `.solcover.js`

The repository's only JavaScript source is `.solcover.js`, which assigns one
object literal to `module.exports`.  The literal is embedded below as a value of
`JsValue`, a small model of the JavaScript values an object literal can hold.
-/

namespace Solcover

/-- JavaScript values that can occur in a module's exported object. -/
inductive JsValue where
  | undefined : JsValue
  | null : JsValue
  | bool (b : Bool) : JsValue
  | num (n : Int) : JsValue
  | str (s : String) : JsValue
  | func (params : List String) : JsValue
  | arr (elems : List JsValue) : JsValue
  | obj (props : List (String × JsValue)) : JsValue

namespace JsValue

/-- Own enumerable property names of an object, in insertion order
(`Object.keys`), a name written twice in the literal counting once; a value
that is not an object has none. -/
def keys : JsValue → List String
  | obj props => (props.map Prod.fst).eraseDups
  | _ => []

/-- Property lookup on the property list of an object literal: of several
entries with the given name the last one written wins. -/
def lookupProp (k : String) : List (String × JsValue) → Option JsValue
  | [] => none
  | (k', v) :: rest =>
    match lookupProp k rest with
    | some w => some w
    | none => if k' = k then some v else none

/-- Property access `v[k]`: `none` stands for a missing property. -/
def get? (v : JsValue) (k : String) : Option JsValue :=
  match v with
  | obj props => lookupProp k props
  | _ => none

/-- Access along a path of property names, `v[k₁][k₂]...`. -/
def getPath? (v : JsValue) : List String → Option JsValue
  | [] => some v
  | k :: ks =>
    match v.get? k with
    | some w => getPath? w ks
    | none => none

/-- The JavaScript `typeof` of a value, with arrays told apart from objects. -/
def typeOf : JsValue → String
  | undefined => "undefined"
  | null => "null"
  | bool _ => "boolean"
  | num _ => "number"
  | str _ => "string"
  | func _ => "function"
  | arr _ => "array"
  | obj _ => "object"

mutual
/-- The leaves of a value: every value that is neither an array nor an object,
found by descending through array elements and property values. -/
def leaves : JsValue → List JsValue
  | arr elems => leavesList elems
  | obj props => leavesProps props
  | v => [v]
/-- Leaves of the elements of an array. -/
def leavesList : List JsValue → List JsValue
  | [] => []
  | v :: rest => leaves v ++ leavesList rest
/-- Leaves of the property values of an object. -/
def leavesProps : List (String × JsValue) → List JsValue
  | [] => []
  | (_, v) :: rest => leaves v ++ leavesProps rest
end

/-- A string literal or a boolean literal. -/
def isStringOrBool : JsValue → Bool
  | str _ => true
  | bool _ => true
  | _ => false

/-- The elements of an array value as strings, when the value is an array all
of whose elements are strings. -/
def asStringList? : JsValue → Option (List String)
  | arr elems => elems.mapM (fun e => match e with | str s => some s | _ => none)
  | _ => none

/-- The boolean held by a boolean value. -/
def asBool? : JsValue → Option Bool
  | bool b => some b
  | _ => none

/-- The string held by a string value. -/
def asString? : JsValue → Option String
  | str s => some s
  | _ => none

end JsValue

/-- The object literal assigned to `module.exports` in `.solcover.js`. -/
def module.exports : JsValue :=
  JsValue.obj [
    ("skipFiles", JsValue.arr [JsValue.str "lib/openzeppelin-contracts/"]),
    ("configureYulOptimizer", JsValue.bool true),
    ("solcOptimizerDetails", JsValue.obj [
      ("yul", JsValue.bool true),
      ("yulDetails", JsValue.obj [
        ("stackAllocation", JsValue.bool true),
        ("optimizerSteps", JsValue.str "u")
      ])
    ])
  ]

/-- Modelled from the spec: the recognized options of the configuration surface
(section 6), which the coverage engine reads; the engine is not in the source. -/
def recognizedOptions : List String :=
  ["skipFiles", "configureYulOptimizer", "solcOptimizerDetails"]

/-- The `skipFiles` option read as a sequence of path patterns; a configuration
without a well-formed `skipFiles` array contributes no pattern. -/
def skipFiles (config : JsValue) : List String :=
  ((config.get? "skipFiles").bind JsValue.asStringList?).getD []

/-- A set of path patterns. -/
abbrev ExclusionSet := Finset String

/-- Modelled from the spec: the ExclusionSet is populated from the `skipFiles`
option (section 6); the engine that builds it is not in the source. -/
def exclusionSet (config : JsValue) : ExclusionSet :=
  (skipFiles config).toFinset

/-- Modelled from the spec: `configureYulOptimizer` selects whether the
Compilation Coordinator requests IR-level optimization from the external
compiler (section 6); the coordinator is not in the source. -/
def requestsIrOptimization (config : JsValue) : Bool :=
  (config.get? "configureYulOptimizer").bind JsValue.asBool? = some true

end Solcover

/-!
# The coverage engine the configuration parameterizes

The engine itself is not part of the repository.  The definitions below follow
the data model (section 3) and the component contracts (section 4) of the
specification.
-/

namespace Coverage

/-- Modelled from the spec: the variants of an Instrumentable (section 3),
`Branch` carrying its sub-branch index; the engine is not in the source. -/
inductive Kind where
  | Statement : Kind
  | Branch (subBranch : Nat) : Kind
  | FunctionEntry : Kind
  | Line : Kind
  deriving DecidableEq, Repr

/-- Modelled from the spec: the stable identifier of an Instrumentable, made of
the SourceUnit path, the construct kind and the pre-order traversal index
(section 4.2); the engine is not in the source. -/
structure Identifier where
  path : String
  kind : Kind
  index : Nat
  deriving DecidableEq, Repr

/-- Source range of a construct: start and end offset. -/
structure SourceRange where
  start : Nat
  stop : Nat
  deriving DecidableEq, Repr

/-- Modelled from the spec: a parsed syntax tree (section 3).  A node may be an
instrumentable construct of some kind, spans a source range and has child
nodes; the parser is not in the source. -/
inductive SyntaxTree where
  | node (construct : Option Kind) (range : SourceRange) (children : List SyntaxTree) : SyntaxTree

/-- Inclusion status of a SourceUnit. -/
inductive InclusionStatus where
  | included : InclusionStatus
  | excluded : InclusionStatus
  deriving DecidableEq, Repr

/-- Modelled from the spec: a single source file with its path, raw text,
parsed syntax tree and inclusion status (section 3); the engine is not in the
source. -/
structure SourceUnit where
  path : String
  rawText : String
  tree : SyntaxTree
  status : InclusionStatus

/-- Modelled from the spec: a located construct requiring a coverage probe, with
its stable identifier, its source range and the path of its parent SourceUnit
(section 3); the engine is not in the source. -/
structure Instrumentable where
  id : Identifier
  range : SourceRange
  parent : String
  deriving DecidableEq, Repr

/-- Modelled from the spec: the error taxonomy of section 7; the engine is not
in the source. -/
inductive EngineError where
  | ConfigError : EngineError
  | ParseError : EngineError
  | UnsupportedConstructError : EngineError
  | InstrumentationLossError : EngineError
  | AggregationError : EngineError
  deriving DecidableEq, Repr

/-- Modelled from the spec: stable identifier assignment, a function of the
SourceUnit path, the construct kind and the pre-order traversal index
(section 4.2); the Instrumenter is not in the source. -/
def stableIdentifier (path : String) (kind : Kind) (index : Nat) : Identifier :=
  { path := path, kind := kind, index := index }

mutual
/-- Modelled from the spec: the Instrumenter walking one syntax tree in
pre-order (section 4.2).  The walk carries the index of the next node; a node
that is an instrumentable construct yields one Instrumentable whose identifier
is assigned from the path, the kind and the index of the node.  The result is
the list of Instrumentables and the index after the subtree.  The rewriting of
the tree into an instrumented tree is left out; the Instrumenter is not in the
source. -/
def instrumentTree (path : String) : SyntaxTree → Nat → List Instrumentable × Nat
  | SyntaxTree.node construct range children, next =>
    let own : List Instrumentable :=
      match construct with
      | some kind => [{ id := stableIdentifier path kind next, range := range, parent := path }]
      | none => []
    let below := instrumentForest path children (next + 1)
    (own ++ below.1, below.2)
/-- Modelled from the spec: the pre-order walk over the children of a node, left
to right (section 4.2); the Instrumenter is not in the source. -/
def instrumentForest (path : String) : List SyntaxTree → Nat → List Instrumentable × Nat
  | [], next => ([], next)
  | t :: ts, next =>
    let first := instrumentTree path t next
    let others := instrumentForest path ts first.2
    (first.1 ++ others.1, others.2)
end

/-- Modelled from the spec: the Instrumenter on one SourceUnit, giving the list
of Instrumentables with stable identifiers and source ranges (section 4.2); the
Instrumenter is not in the source. -/
def Instrumenter (u : SourceUnit) : List Instrumentable :=
  (instrumentTree u.path u.tree 0).1

mutual
/-- The nodes of a syntax tree in pre-order, each with its construct kind and
source range. -/
def preorder : SyntaxTree → List (Option Kind × SourceRange)
  | SyntaxTree.node construct range children => (construct, range) :: preorderForest children
/-- The nodes of a list of syntax trees in pre-order. -/
def preorderForest : List SyntaxTree → List (Option Kind × SourceRange)
  | [] => []
  | t :: ts => preorder t ++ preorderForest ts
end

/-- The Instrumentable of the node with the given pre-order index, if the node
is an instrumentable construct. -/
def instrumentableAt (path : String) (entry : Nat × Option Kind × SourceRange) :
    Option Instrumentable :=
  entry.2.1.map (fun kind =>
    { id := stableIdentifier path kind entry.1, range := entry.2.2, parent := path })

/-- The identifier assigned to the node with the given pre-order index, if the
node is an instrumentable construct. -/
def identifierAt (path : String) (entry : Nat × Option Kind × SourceRange) :
    Option Identifier :=
  entry.2.1.map (fun kind => stableIdentifier path kind entry.1)

/-- The identifiers of a list of Instrumentables. -/
def identifiers (instrumentables : List Instrumentable) : List Identifier :=
  instrumentables.map (fun i => i.id)

/-- Modelled from the spec: the Exclusion Filter classifying one discovered file
against the ExclusionSet (section 4.1).  Glob matching of a pattern against a
path is taken as the parameter `glob`: the spec names the patterns glob-style
and says no more.  The non-fatal `ConfigError` diagnostic for a pattern that
matches no file is left out.  The Exclusion Filter is not in the source. -/
def ExclusionFilter (glob : String → String → Bool) (exclusions : Solcover.ExclusionSet)
    (u : SourceUnit) : SourceUnit :=
  if ∃ pattern ∈ exclusions, glob pattern u.path = true then
    { u with status := InclusionStatus.excluded }
  else
    { u with status := InclusionStatus.included }

/-- Modelled from the spec: included files proceed to instrumentation, excluded
files are passed through untouched (sections 2 and 4.1); the engine is not in
the source. -/
def instrumentUnit (u : SourceUnit) : List Instrumentable :=
  match u.status with
  | InclusionStatus.included => Instrumenter u
  | InclusionStatus.excluded => []

/-- Modelled from the spec: the data flow Exclusion Filter → Instrumenter over
the discovered files of a source tree (section 2), giving each classified
SourceUnit with its Instrumentables; the engine is not in the source. -/
def instrumentAll (glob : String → String → Bool) (exclusions : Solcover.ExclusionSet)
    (discovered : List SourceUnit) : List (SourceUnit × List Instrumentable) :=
  discovered.map (fun u =>
    let classified := ExclusionFilter glob exclusions u
    (classified, instrumentUnit classified))

/-- Modelled from the spec: a CoverageMap, a finite mapping from Instrumentable
identifier to hit count, a non-negative integer (section 3); the engine is not
in the source. -/
abbrev CoverageMap := Finmap (fun _ : Identifier => Nat)

/-- Hit count of an identifier in a CoverageMap; an identifier the map does not
hold has hit count 0. -/
def hitCount (m : CoverageMap) (i : Identifier) : Nat :=
  (m.lookup i).getD 0

/-- The entries of the sum of two CoverageMaps: one entry per identifier of the
first map, holding the sum of the two hit counts. -/
def sumEntries (a b : CoverageMap) : Multiset (Sigma (fun _ : Identifier => Nat)) :=
  a.keys.val.map (fun i => ⟨i, hitCount a i + hitCount b i⟩)

/-- Modelled from the spec: summing hit counts per Instrumentable identifier
(section 4.5); the Coverage Aggregator is not in the source. -/
def sumCounts (a b : CoverageMap) : CoverageMap :=
  { entries := sumEntries a b
    nodupKeys := by
      have hkeys : (sumEntries a b).keys = a.keys.val := by
        simp [sumEntries, Multiset.keys, Multiset.map_map, Function.comp_def]
      rw [← Multiset.nodup_keys, hkeys]
      exact a.keys.nodup }

/-- Modelled from the spec: the Coverage Aggregator merging two CoverageMaps of
one SourceUnit by summing hit counts per Instrumentable identifier; it fails
with `AggregationError` when the two maps disagree on the set of Instrumentable
identifiers (section 4.5).  The Coverage Aggregator is not in the source. -/
def merge (a b : CoverageMap) : Except EngineError CoverageMap :=
  if a.keys = b.keys then Except.ok (sumCounts a b)
  else Except.error EngineError.AggregationError

/-- Modelled from the spec: merging a sequence of per-run CoverageMaps into an
accumulated CoverageMap, one run after the other; the first failure is fatal
(sections 4.5 and 7).  The Coverage Aggregator is not in the source. -/
def mergeRuns (acc : CoverageMap) : List CoverageMap → Except EngineError CoverageMap
  | [] => Except.ok acc
  | run :: rest =>
    match merge acc run with
    | Except.ok acc' => mergeRuns acc' rest
    | Except.error e => Except.error e

/-! Sample inputs on which the definitions are evaluated. -/

namespace Sample

/-- A glob matcher for the samples: a pattern matches the paths it is a prefix
of. -/
def prefixGlob (pattern path : String) : Bool :=
  pattern.data.isPrefixOf path.data

/-- A syntax tree with a function entry, a statement and a two-armed branch. -/
def sampleTree : SyntaxTree :=
  SyntaxTree.node none ⟨0, 120⟩ [
    SyntaxTree.node (some Kind.FunctionEntry) ⟨10, 100⟩ [
      SyntaxTree.node (some Kind.Statement) ⟨20, 40⟩ [],
      SyntaxTree.node none ⟨41, 90⟩ [
        SyntaxTree.node (some (Kind.Branch 0)) ⟨50, 60⟩ [],
        SyntaxTree.node (some (Kind.Branch 1)) ⟨61, 80⟩ []]]]

/-- A source file of the project. -/
def goldTokenUnit : SourceUnit :=
  { path := "src/GoldToken.sol", rawText := "pragma solidity ^0.8.20;",
    tree := sampleTree, status := InclusionStatus.included }

/-- The same source file as scanned by a second run. -/
def goldTokenUnitAgain : SourceUnit :=
  { path := "src/GoldToken.sol", rawText := "pragma solidity ^0.8.20;",
    tree := sampleTree, status := InclusionStatus.excluded }

/-- A source file of the vendored library. -/
def erc20Unit : SourceUnit :=
  { path := "lib/openzeppelin-contracts/token/ERC20/ERC20.sol",
    rawText := "pragma solidity ^0.8.20;",
    tree := sampleTree, status := InclusionStatus.included }

/-- The identifier of a statement. -/
def S1 : Identifier := stableIdentifier "src/GoldToken.sol" Kind.Statement 2

/-- A map in which no run has hit `S1` yet. -/
def run0 : CoverageMap := Finmap.singleton S1 0

/-- A run that hits `S1` twice. -/
def run1 : CoverageMap := Finmap.singleton S1 2

/-- A run that hits `S1` once. -/
def run2 : CoverageMap := Finmap.singleton S1 1

end Sample

end Coverage

/-!
# Theorems about the exported configuration
-/

namespace Solcover

open JsValue

/-- C1: the `skipFiles` option of the exported configuration is the one-element
sequence holding the pattern `lib/openzeppelin-contracts/`: it is an array of
length 1 whose only element is that string, and the ExclusionSet populated from
it contains that pattern and no other. -/
theorem skipFiles_is_openzeppelin :
    module.exports.get? "skipFiles" = some (arr [str "lib/openzeppelin-contracts/"])
    ∧ skipFiles module.exports = ["lib/openzeppelin-contracts/"]
    ∧ (skipFiles module.exports).length = 1
    ∧ (skipFiles module.exports).head? = some "lib/openzeppelin-contracts/"
    ∧ ∀ pattern : String,
        pattern ∈ exclusionSet module.exports ↔ pattern = "lib/openzeppelin-contracts/" := by
  have hskip : skipFiles module.exports = ["lib/openzeppelin-contracts/"] := by decide
  refine ⟨rfl, hskip, ?_, ?_, ?_⟩
  · rw [hskip]; rfl
  · rw [hskip]; rfl
  · intro pattern
    simp [exclusionSet, hskip]

/-- C2: the `configureYulOptimizer` option of the exported configuration is a
boolean and its value is true, so the configuration selects that IR-level
optimization is requested from the external compiler. -/
theorem configureYulOptimizer_is_true :
    module.exports.get? "configureYulOptimizer" = some (bool true)
    ∧ (module.exports.get? "configureYulOptimizer").map typeOf = some "boolean"
    ∧ requestsIrOptimization module.exports = true := by
  refine ⟨rfl, by decide, by decide⟩

/-- C3: `solcOptimizerDetails` of the exported configuration is an object whose
keys are exactly `yul` and `yulDetails`; `yul` is the boolean true; `yulDetails`
is an object whose keys are exactly `stackAllocation` and `optimizerSteps`;
`stackAllocation` is the boolean true and `optimizerSteps` is the string "u",
of one character. -/
theorem solcOptimizerDetails_shape :
    ∃ details yulDetails : JsValue,
      module.exports.get? "solcOptimizerDetails" = some details
      ∧ details.typeOf = "object"
      ∧ details.keys = ["yul", "yulDetails"]
      ∧ details.get? "yul" = some (bool true)
      ∧ details.get? "yulDetails" = some yulDetails
      ∧ yulDetails.typeOf = "object"
      ∧ yulDetails.keys = ["stackAllocation", "optimizerSteps"]
      ∧ yulDetails.get? "stackAllocation" = some (bool true)
      ∧ yulDetails.get? "optimizerSteps" = some (str "u")
      ∧ "u".length = 1 := by
  refine ⟨obj [("yul", bool true),
      ("yulDetails", obj [("stackAllocation", bool true), ("optimizerSteps", str "u")])],
    obj [("stackAllocation", bool true), ("optimizerSteps", str "u")],
    rfl, by decide, by decide, rfl, rfl, by decide, by decide, rfl, rfl, by decide⟩

/-- C4: the value exported by `.solcover.js` is a constant data object: it is
an object whose top-level keys are exactly `skipFiles`, `configureYulOptimizer`
and `solcOptimizerDetails`, without repetition; each of them is a recognized
option of the configuration surface; and every leaf value of the object is a
string or a boolean, none a function, a number, null or undefined. -/
theorem module_exports_is_configuration_data :
    module.exports.typeOf = "object"
    ∧ module.exports.keys = ["skipFiles", "configureYulOptimizer", "solcOptimizerDetails"]
    ∧ module.exports.keys.Nodup
    ∧ (∀ k ∈ module.exports.keys, k ∈ recognizedOptions)
    ∧ (∀ v ∈ module.exports.leaves, v.isStringOrBool = true)
    ∧ (∀ v ∈ module.exports.leaves, v.typeOf = "string" ∨ v.typeOf = "boolean") := by
  refine ⟨by decide, by decide, by decide, by decide, ?_, ?_⟩
  · have h : module.exports.leaves.all isStringOrBool = true := by decide
    intro v hv
    exact List.all_eq_true.1 h v hv
  · have h : module.exports.leaves.all
        (fun v => decide (v.typeOf = "string" ∨ v.typeOf = "boolean")) = true := by decide
    intro v hv
    exact of_decide_eq_true (List.all_eq_true.1 h v hv)

/-- C10: the two IR-optimizer switches of the exported configuration agree: the
top-level `configureYulOptimizer` flag and the nested `solcOptimizerDetails.yul`
toggle are both the boolean true. -/
theorem yul_switches_agree :
    (module.exports.get? "configureYulOptimizer").bind asBool? = some true
    ∧ (module.exports.getPath? ["solcOptimizerDetails", "yul"]).bind asBool? = some true
    ∧ (module.exports.get? "configureYulOptimizer").bind asBool?
        = (module.exports.getPath? ["solcOptimizerDetails", "yul"]).bind asBool? := by
  refine ⟨by decide, by decide, by decide⟩

end Solcover

/-!
# Theorems about the coverage engine of the specification
-/

namespace Coverage

open Solcover Sample

theorem sumEntries_keys (a b : CoverageMap) : (sumEntries a b).keys = a.keys.val := by
  simp [sumEntries, Multiset.keys, Multiset.map_map, Function.comp_def]

theorem keys_sumCounts (a b : CoverageMap) : (sumCounts a b).keys = a.keys := by
  apply Finset.val_injective
  exact sumEntries_keys a b

theorem lookup_sumCounts (a b : CoverageMap) (i : Identifier) :
    (sumCounts a b).lookup i
      = if i ∈ a.keys then some (hitCount a i + hitCount b i) else none := by
  by_cases hi : i ∈ a.keys
  · rw [if_pos hi, Finmap.lookup_eq_some_iff]
    show Sigma.mk i (hitCount a i + hitCount b i) ∈ sumEntries a b
    exact Multiset.mem_map.2 ⟨i, hi, rfl⟩
  · rw [if_neg hi, Finmap.lookup_eq_none, ← Finmap.mem_keys, keys_sumCounts]
    exact hi

theorem hitCount_of_not_mem (a : CoverageMap) (i : Identifier) (hi : i ∉ a.keys) :
    hitCount a i = 0 := by
  have h : a.lookup i = none := Finmap.lookup_eq_none.2 (fun hmem => hi (Finmap.mem_keys.2 hmem))
  simp [hitCount, h]

theorem hitCount_sumCounts (a b : CoverageMap) (hkeys : a.keys = b.keys) (i : Identifier) :
    hitCount (sumCounts a b) i = hitCount a i + hitCount b i := by
  by_cases hi : i ∈ a.keys
  · simp [hitCount, lookup_sumCounts, hi]
  · have ha := hitCount_of_not_mem a i hi
    have hb := hitCount_of_not_mem b i (hkeys ▸ hi)
    rw [ha, hb]
    simp [hitCount, lookup_sumCounts, hi]

theorem sumCounts_comm (a b : CoverageMap) (hkeys : a.keys = b.keys) :
    sumCounts a b = sumCounts b a := by
  apply Finmap.ext_lookup
  intro i
  rw [lookup_sumCounts, lookup_sumCounts, hkeys, Nat.add_comm]

theorem sumCounts_assoc (a b c : CoverageMap) (hab : a.keys = b.keys) (hbc : b.keys = c.keys) :
    sumCounts (sumCounts a b) c = sumCounts a (sumCounts b c) := by
  apply Finmap.ext_lookup
  intro i
  rw [lookup_sumCounts, lookup_sumCounts, keys_sumCounts, hitCount_sumCounts a b hab,
    hitCount_sumCounts b c hbc, Nat.add_assoc]

theorem merge_eq_ok (a b : CoverageMap) (hkeys : a.keys = b.keys) :
    merge a b = Except.ok (sumCounts a b) := by
  simp [merge, hkeys]

theorem merge_eq_error (a b : CoverageMap) (hkeys : a.keys ≠ b.keys) :
    merge a b = Except.error EngineError.AggregationError := by
  simp [merge, hkeys]

theorem merge_ok_iff (a b m : CoverageMap) :
    merge a b = Except.ok m ↔ a.keys = b.keys ∧ m = sumCounts a b := by
  by_cases hkeys : a.keys = b.keys
  · rw [merge_eq_ok a b hkeys]
    constructor
    · intro h
      exact ⟨hkeys, (Except.ok.inj h).symm⟩
    · rintro ⟨_, rfl⟩
      rfl
  · rw [merge_eq_error a b hkeys]
    constructor
    · intro h
      cases h
    · rintro ⟨h, _⟩
      exact absurd h hkeys

theorem merge_comm (a b : CoverageMap) : merge a b = merge b a := by
  by_cases hkeys : a.keys = b.keys
  · rw [merge_eq_ok a b hkeys, merge_eq_ok b a hkeys.symm, sumCounts_comm a b hkeys]
  · rw [merge_eq_error a b hkeys, merge_eq_error b a (fun h => hkeys h.symm)]

theorem merge_assoc (a b c : CoverageMap) :
    (merge a b).bind (fun ab => merge ab c) = (merge b c).bind (fun bc => merge a bc) := by
  by_cases hab : a.keys = b.keys
  · by_cases hbc : b.keys = c.keys
    · rw [merge_eq_ok a b hab, merge_eq_ok b c hbc]
      show merge (sumCounts a b) c = merge a (sumCounts b c)
      rw [merge_eq_ok _ _ (by rw [keys_sumCounts, hab, hbc]),
        merge_eq_ok _ _ (by rw [keys_sumCounts, hab]), sumCounts_assoc a b c hab hbc]
    · rw [merge_eq_ok a b hab, merge_eq_error b c hbc]
      show merge (sumCounts a b) c = Except.error EngineError.AggregationError
      exact merge_eq_error _ _ (by rw [keys_sumCounts, hab]; exact hbc)
  · rw [merge_eq_error a b hab]
    show Except.error EngineError.AggregationError = (merge b c).bind (fun bc => merge a bc)
    by_cases hbc : b.keys = c.keys
    · rw [merge_eq_ok b c hbc]
      show _ = merge a (sumCounts b c)
      rw [merge_eq_error _ _ (by rw [keys_sumCounts]; exact hab)]
    · rw [merge_eq_error b c hbc]
      rfl

theorem mergeRuns_cons (acc run : CoverageMap) (rest : List CoverageMap) :
    mergeRuns acc (run :: rest) = (merge acc run).bind (fun acc' => mergeRuns acc' rest) := by
  rw [mergeRuns]
  cases merge acc run <;> rfl

theorem mergeRuns_append_single (acc : CoverageMap) (runs : List CoverageMap) (run : CoverageMap) :
    mergeRuns acc (runs ++ [run]) = (mergeRuns acc runs).bind (fun m => merge m run) := by
  induction runs generalizing acc with
  | nil =>
    show mergeRuns acc [run] = merge acc run
    rw [mergeRuns_cons]
    cases merge acc run <;> rfl
  | cons r rs ih =>
    rw [List.cons_append, mergeRuns_cons, mergeRuns_cons]
    cases merge acc r with
    | error e => rfl
    | ok acc' => exact ih acc'

theorem merge_right_comm (acc x y : CoverageMap) :
    (merge acc x).bind (fun m => merge m y) = (merge acc y).bind (fun m => merge m x) := by
  rw [merge_assoc acc x y, merge_assoc acc y x, merge_comm x y]

theorem mergeRuns_perm (runs runs' : List CoverageMap) (hperm : runs.Perm runs') :
    ∀ acc : CoverageMap, mergeRuns acc runs = mergeRuns acc runs' := by
  induction hperm with
  | nil => intro acc; rfl
  | cons x _ ih =>
    intro acc
    rw [mergeRuns_cons, mergeRuns_cons]
    cases merge acc x with
    | error e => rfl
    | ok acc' => exact ih acc'
  | swap x y l =>
    intro acc
    have h := merge_right_comm acc y x
    rw [mergeRuns_cons, mergeRuns_cons]
    cases hy : merge acc y with
    | error e =>
      rw [hy] at h
      cases hx : merge acc x with
      | error e' =>
        rw [hx] at h
        exact h
      | ok ax =>
        rw [hx] at h
        show Except.error e = (mergeRuns ax (y :: l))
        rw [mergeRuns_cons]
        have h' : Except.error e = merge ax y := h
        rw [← h']
        rfl
    | ok ay =>
      rw [hy] at h
      show mergeRuns ay (x :: l) = _
      rw [mergeRuns_cons]
      have h' : merge ay x = (merge acc x).bind (fun m => merge m y) := h
      rw [h']
      cases hx : merge acc x with
      | error e' => rfl
      | ok ax =>
        show (merge ax y).bind _ = mergeRuns ax (y :: l)
        rw [mergeRuns_cons]
  | trans _ _ ih₁ ih₂ =>
    intro acc
    rw [ih₁ acc, ih₂ acc]

theorem hitCount_le_of_merge (acc run m : CoverageMap) (i : Identifier)
    (hm : merge acc run = Except.ok m) : hitCount acc i ≤ hitCount m i := by
  obtain ⟨hkeys, rfl⟩ := (merge_ok_iff acc run m).1 hm
  rw [hitCount_sumCounts acc run hkeys]
  exact Nat.le_add_right _ _

theorem hitCount_le_of_mergeRuns (runs : List CoverageMap) (i : Identifier) :
    ∀ acc m : CoverageMap, mergeRuns acc runs = Except.ok m → hitCount acc i ≤ hitCount m i := by
  induction runs with
  | nil =>
    intro acc m hm
    cases hm
    exact Nat.le_refl _
  | cons r rs ih =>
    intro acc m hm
    rw [mergeRuns_cons] at hm
    cases hr : merge acc r with
    | error e =>
      rw [hr] at hm
      cases hm
    | ok acc' =>
      rw [hr] at hm
      exact Nat.le_trans (hitCount_le_of_merge acc r acc' i hr) (ih acc' m hm)

mutual
theorem instrumentTree_eq (path : String) : ∀ (t : SyntaxTree) (next : Nat),
    instrumentTree path t next
      = (((preorder t).enumFrom next).filterMap (instrumentableAt path),
          next + (preorder t).length)
  | SyntaxTree.node construct range children, next => by
    cases construct <;>
      simp [instrumentTree, preorder, instrumentForest_eq path children (next + 1),
        List.enumFrom_cons, instrumentableAt, Nat.add_assoc, Nat.add_comm 1]
theorem instrumentForest_eq (path : String) : ∀ (ts : List SyntaxTree) (next : Nat),
    instrumentForest path ts next
      = (((preorderForest ts).enumFrom next).filterMap (instrumentableAt path),
          next + (preorderForest ts).length)
  | [], next => by
    simp [instrumentForest, preorderForest]
  | t :: ts, next => by
    rw [instrumentForest, preorderForest, instrumentTree_eq path t next,
      instrumentForest_eq path ts (next + (preorder t).length)]
    simp [List.enumFrom_append, Nat.add_assoc]
end

theorem identifiers_filterMap_instrumentableAt (path : String)
    (entries : List (Nat × Option Kind × SourceRange)) :
    identifiers (entries.filterMap (instrumentableAt path))
      = entries.filterMap (identifierAt path) := by
  induction entries with
  | nil => rfl
  | cons e es ih =>
    obtain ⟨n, construct, range⟩ := e
    cases construct with
    | none =>
      simpa [identifiers, instrumentableAt, identifierAt] using ih
    | some kind =>
      simpa [identifiers, instrumentableAt, identifierAt] using ih

theorem identifiers_Instrumenter (u : SourceUnit) :
    identifiers (Instrumenter u) = (preorder u.tree).enum.filterMap (identifierAt u.path) := by
  rw [Instrumenter, instrumentTree_eq, identifiers_filterMap_instrumentableAt]
  rfl

/-- C5: exclusion correctness.  In the output of the Exclusion Filter followed by
the Instrumenter over the discovered files, every SourceUnit whose path matches
a pattern of the ExclusionSet is classified as excluded and has no
Instrumentable; with the ExclusionSet of the exported configuration this holds
for every path matching `lib/openzeppelin-contracts/`. -/
theorem exclusion_correctness (glob : String → String → Bool) (exclusions : ExclusionSet)
    (discovered : List SourceUnit) (entry : SourceUnit × List Instrumentable)
    (hentry : entry ∈ instrumentAll glob exclusions discovered) :
    ((∃ pattern ∈ exclusions, glob pattern entry.1.path = true) →
      entry.1.status = InclusionStatus.excluded ∧ entry.2 = [])
    ∧ (exclusions = exclusionSet module.exports →
        glob "lib/openzeppelin-contracts/" entry.1.path = true →
        entry.1.status = InclusionStatus.excluded ∧ entry.2 = []) := by
  obtain ⟨u, _, rfl⟩ := List.mem_map.1 hentry
  have hpath : (ExclusionFilter glob exclusions u).path = u.path := by
    unfold ExclusionFilter
    split <;> rfl
  have main : (∃ pattern ∈ exclusions, glob pattern u.path = true) →
      (ExclusionFilter glob exclusions u).status = InclusionStatus.excluded
        ∧ instrumentUnit (ExclusionFilter glob exclusions u) = [] := by
    intro hmatch
    have hstatus : (ExclusionFilter glob exclusions u).status = InclusionStatus.excluded := by
      unfold ExclusionFilter
      rw [if_pos hmatch]
    refine ⟨hstatus, ?_⟩
    unfold instrumentUnit
    rw [hstatus]
  refine ⟨?_, ?_⟩
  · intro hmatch
    apply main
    simpa only [hpath] using hmatch
  · intro hexcl hmatch
    apply main
    refine ⟨"lib/openzeppelin-contracts/", ?_, ?_⟩
    · rw [hexcl]
      decide
    · simpa only [hpath] using hmatch

theorem exclusion_correctness_witness :
    (ExclusionFilter prefixGlob (exclusionSet module.exports) erc20Unit, [])
        ∈ instrumentAll prefixGlob (exclusionSet module.exports) [goldTokenUnit, erc20Unit]
    ∧ prefixGlob "lib/openzeppelin-contracts/" erc20Unit.path = true
    ∧ (ExclusionFilter prefixGlob (exclusionSet module.exports) erc20Unit).status
        = InclusionStatus.excluded
    ∧ (Instrumenter erc20Unit).length = 4 :=
  have hmem : ((ExclusionFilter prefixGlob (exclusionSet module.exports) erc20Unit, []) :
      SourceUnit × List Instrumentable)
      ∈ instrumentAll prefixGlob (exclusionSet module.exports) [goldTokenUnit, erc20Unit] :=
    List.mem_cons_of_mem _ (List.mem_singleton.2 rfl)
  ⟨hmem, by decide,
    ((exclusion_correctness prefixGlob (exclusionSet module.exports)
      [goldTokenUnit, erc20Unit] _ hmem).2 rfl (by decide)).1,
    by decide⟩

/-- C6: aggregation is order-independent.  Merging is commutative: merging `a`
with `b` gives the same result as merging `b` with `a`.  Merging is associative.
Hence merging a sequence of runs into an accumulated CoverageMap gives the same
result for every reordering of the sequence. -/
theorem merge_order_independent (a b c acc : CoverageMap) (runs runs' : List CoverageMap)
    (hperm : runs.Perm runs') :
    merge a b = merge b a
    ∧ (merge a b).bind (fun ab => merge ab c) = (merge b c).bind (fun bc => merge a bc)
    ∧ mergeRuns acc runs = mergeRuns acc runs' :=
  ⟨merge_comm a b, merge_assoc a b c, mergeRuns_perm runs runs' hperm acc⟩

theorem merge_order_independent_witness :
    [run1, run2].Perm [run2, run1]
    ∧ merge run1 run2 = Except.ok (Finmap.singleton S1 3)
    ∧ merge run1 run2 = merge run2 run1
    ∧ mergeRuns run0 [run1, run2] = Except.ok (Finmap.singleton S1 3)
    ∧ mergeRuns run0 [run1, run2] = mergeRuns run0 [run2, run1] :=
  have h := merge_order_independent run1 run2 run0 run0 [run1, run2] [run2, run1]
    (List.Perm.swap run2 run1 [])
  ⟨List.Perm.swap run2 run1 [], rfl, h.1, rfl, h.2.2⟩

/-- C7: the Coverage Aggregator sums hit counts per Instrumentable identifier.
For two runs over the same set of identifiers the merge yields a CoverageMap
whose hit count for every identifier `S` is the sum of the two runs' hit counts
for `S`; in particular a run that hits `S1` twice merged with a run that hits
`S1` once yields hit count 3 for `S1`. -/
theorem merge_sums_hitCounts (a b : CoverageMap) (hkeys : a.keys = b.keys) :
    ∃ m : CoverageMap, merge a b = Except.ok m
      ∧ m.keys = a.keys
      ∧ (∀ S : Identifier, hitCount m S = hitCount a S + hitCount b S)
      ∧ (∀ S1 : Identifier, hitCount a S1 = 2 → hitCount b S1 = 1 → hitCount m S1 = 3) := by
  refine ⟨sumCounts a b, merge_eq_ok a b hkeys, keys_sumCounts a b,
    hitCount_sumCounts a b hkeys, ?_⟩
  intro S1 h1 h2
  rw [hitCount_sumCounts a b hkeys, h1, h2]

theorem merge_sums_hitCounts_witness :
    run1.keys = run2.keys ∧ hitCount run1 S1 = 2 ∧ hitCount run2 S1 = 1
    ∧ ∃ m : CoverageMap, merge run1 run2 = Except.ok m ∧ hitCount m S1 = 3 :=
  have hkeys : run1.keys = run2.keys := by decide
  have h1 : hitCount run1 S1 = 2 := by decide
  have h2 : hitCount run2 S1 = 1 := by decide
  match merge_sums_hitCounts run1 run2 hkeys with
  | ⟨m, hm, _, _, h3⟩ => ⟨hkeys, h1, h2, m, hm, h3 S1 h1 h2⟩

/-- C8: coverage monotonicity.  After any sequence of runs has been merged into
an accumulated CoverageMap `m`, merging one more run over the same identifiers
yields a CoverageMap in which the hit count of every identifier is at least its
hit count in `m`; and its hit count in `m` is at least its hit count before the
sequence was merged.  Hit counts never decrease and are never reset. -/
theorem hitCount_monotone (acc : CoverageMap) (runs : List CoverageMap) (m run : CoverageMap)
    (i : Identifier) (hm : mergeRuns acc runs = Except.ok m) (hkeys : m.keys = run.keys) :
    ∃ m' : CoverageMap, merge m run = Except.ok m'
      ∧ mergeRuns acc (runs ++ [run]) = Except.ok m'
      ∧ hitCount m i ≤ hitCount m' i
      ∧ hitCount acc i ≤ hitCount m i := by
  refine ⟨sumCounts m run, merge_eq_ok m run hkeys, ?_, ?_, ?_⟩
  · rw [mergeRuns_append_single, hm]
    exact merge_eq_ok m run hkeys
  · exact hitCount_le_of_merge m run _ i (merge_eq_ok m run hkeys)
  · exact hitCount_le_of_mergeRuns runs i acc m hm

theorem hitCount_monotone_witness :
    mergeRuns run0 [run1] = Except.ok run1
    ∧ run1.keys = run2.keys
    ∧ ∃ m' : CoverageMap, mergeRuns run0 ([run1] ++ [run2]) = Except.ok m'
        ∧ hitCount run1 S1 ≤ hitCount m' S1 :=
  have hm : mergeRuns run0 [run1] = Except.ok run1 := rfl
  have hkeys : run1.keys = run2.keys := by decide
  match hitCount_monotone run0 [run1] run1 run2 S1 hm hkeys with
  | ⟨m', _, hruns, hle, _⟩ => ⟨hm, hkeys, m', hruns, hle⟩

/-- C9: identifier assignment is deterministic.  Two runs of the Instrumenter
on a SourceUnit with the same path and the same syntax tree yield the same
identifiers, and the identifiers are those given by `stableIdentifier` from the
path, the construct kind and the pre-order traversal index of each
instrumentable node of the tree. -/
theorem identifier_assignment_deterministic (u v : SourceUnit) (hpath : u.path = v.path)
    (htree : u.tree = v.tree) :
    identifiers (Instrumenter u) = identifiers (Instrumenter v)
    ∧ Instrumenter u = Instrumenter v
    ∧ identifiers (Instrumenter u)
        = (preorder u.tree).enum.filterMap
            (fun entry => entry.2.1.map (fun kind => stableIdentifier u.path kind entry.1)) := by
  have hrun : Instrumenter u = Instrumenter v := by
    unfold Instrumenter
    rw [hpath, htree]
  exact ⟨by rw [hrun], hrun, identifiers_Instrumenter u⟩

theorem identifier_assignment_deterministic_witness :
    goldTokenUnit.path = goldTokenUnitAgain.path
    ∧ goldTokenUnit.tree = goldTokenUnitAgain.tree
    ∧ identifiers (Instrumenter goldTokenUnit) = identifiers (Instrumenter goldTokenUnitAgain)
    ∧ identifiers (Instrumenter goldTokenUnit)
        = [stableIdentifier "src/GoldToken.sol" Kind.FunctionEntry 1,
           stableIdentifier "src/GoldToken.sol" Kind.Statement 2,
           stableIdentifier "src/GoldToken.sol" (Kind.Branch 0) 4,
           stableIdentifier "src/GoldToken.sol" (Kind.Branch 1) 5] :=
  ⟨rfl, rfl, (identifier_assignment_deterministic goldTokenUnit goldTokenUnitAgain rfl rfl).1,
    by decide⟩

end Coverage
